import Mathlib

/-!
Shallow embedding of the STG-style runtime in src/runtime.c.

Memory is byte addressed: `Mem` maps a byte address to the value whose first
byte is stored there.  A machine word (a pointer, an info-table pointer, a
64-bit integer, a stack-B item) occupies 8 consecutive addresses: its value is
recorded in the first cell and the remaining 7 cells are `Val.pad`; a
`uint16_t` occupies 2 cells.  String payload bytes occupy one cell each.  This
mirrors the byte arithmetic of the C code (sizeof(InfoTable *) =
sizeof(uint8_t *) = sizeof(int64_t) = sizeof(StackBItem) = 8) while keeping
reads well-typed: reading a cell with the wrong view is modelled as `none`,
the shallow-embedding rendering of reinterpreting raw bytes.

Static info tables are identified by the name of the table (`ITbl`); `tableOf`
gives the table contents, and the evacuation function pointer stored in a
table is modelled by the tag `EvacKind`, dispatched by `evacFn` exactly as the
collector does through `read_info_table(*root)->evac`.

`malloc` is modelled by a bump counter `nextAlloc`: each allocation returns the
next fresh range of addresses, and `free` is a no-op (the verified paths never
read freed cells).  The two stacks are modelled at slot granularity, as in the
C code, which indexes them with `uint8_t **` and `StackBItem *` arithmetic.

Functions that the C code leaves partial (strlen without a terminator, the
unbounded update-frame walk, reads of raw bytes with the wrong type) return
`Option`; `none` models the undefined executions.
-/

namespace RT

/-- Names of the runtime-owned static info tables (src/runtime.c lines 49,
60, 69, 73, 357).  Compiler-emitted tables are outside the core and are not
needed by any claim. -/
inductive ITbl
  | nullT
  | alreadyEvacT
  | stringT
  | stringLitT
  | pappT
deriving DecidableEq

/-- Which evacuation function a table carries (the EvacFunction pointer). -/
inductive EvacKind
  | staticE
  | alreadyE
  | stringE
deriving DecidableEq

/-- struct InfoTable: entry code label and evac function (src lines 35-40).
`entry := none` models a NULL function pointer; code labels are names (Nat). -/
structure InfoTableC where
  entry : Option Nat
  evac : EvacKind
deriving DecidableEq

/-- InfoTable table_for_null = \x7bNULL, &static_evac\x7d (src line 49). -/
def table_for_null : InfoTableC := ⟨none, EvacKind.staticE⟩

/-- InfoTable table_for_already_evac = \x7bNULL, &already_evac\x7d (src line 60). -/
def table_for_already_evac : InfoTableC := ⟨none, EvacKind.alreadyE⟩

/-- InfoTable table_for_string = \x7bNULL, &string_evac\x7d (src line 69).  The
comment above it says the entry should be a panicking function, but the code
stores NULL. -/
def table_for_string : InfoTableC := ⟨none, EvacKind.stringE⟩

/-- InfoTable table_for_string_literal = \x7bNULL, &static_evac\x7d (src line 73). -/
def table_for_string_literal : InfoTableC := ⟨none, EvacKind.staticE⟩

/-- InfoTable table_for_partial_application = \x7bNULL, &static_evac\x7d (src
line 357; name shortened to papp to satisfy the identifier conventions of
this development). -/
def table_for_papp : InfoTableC := ⟨none, EvacKind.staticE⟩

/-- Contents of each static table. -/
def tableOf : ITbl → InfoTableC
  | ITbl.nullT => table_for_null
  | ITbl.alreadyEvacT => table_for_already_evac
  | ITbl.stringT => table_for_string
  | ITbl.stringLitT => table_for_string_literal
  | ITbl.pappT => table_for_papp

/-- union StackBItem (src lines 102-108).  The C union is read with the view
fixed by context; the model records the view used at the write. -/
inductive BItem
  | intV (n : Int)
  | codeV (l : Nat)
  | closureV (a : Nat)
  | sbBaseV (i : Nat)
  | saBaseV (i : Nat)
deriving DecidableEq

/-- One byte of memory, tagged with the value written over it. -/
inductive Val
  | byteV (b : Nat)
  | ptrV (p : Nat)
  | itblV (t : ITbl)
  | intV (n : Int)
  | u16V (n : Nat)
  | sbV (x : BItem)
  | pad
  | undef
deriving DecidableEq

/-- Byte-addressed memory. -/
def Mem : Type := Nat → Val

/-- Write a list of cells at consecutive addresses. -/
def writeCells : Mem → Nat → List Val → Mem
  | m, _, [] => m
  | m, a, v :: vs => writeCells (Function.update m a v) (a + 1) vs

/-- Copy n cells from src to dst, ascending, as memcpy does. -/
def memcpyCells : Mem → Nat → Nat → Nat → Mem
  | m, _, _, 0 => m
  | m, dst, src, n + 1 => memcpyCells (Function.update m dst (m src)) (dst + 1) (src + 1) n

/-- The 8 cells of one stored machine word. -/
def wordCells (v : Val) : List Val := v :: List.replicate 7 Val.pad

/-- The 2 cells of one stored uint16_t. -/
def u16Cells (n : Nat) : List Val := [Val.u16V (n % 65536), Val.pad]

/-- Scan for a NUL byte, as strlen does; the result is the number of non-NUL
bytes before it.  Scanning a cell that is not a payload byte, or running out
of fuel, models the undefined execution of strlen on a non-string. -/
def findNul (m : Mem) : Nat → Nat → Option Nat
  | _, 0 => none
  | a, fuel + 1 =>
    match m a with
    | Val.byteV 0 => some 0
    | Val.byteV _ => (findNul m (a + 1) fuel).map (· + 1)
    | _ => none

/-- Address-space bound used as strlen fuel: object sizes fit in size_t. -/
def STRLEN_FUEL : Nat := 2 ^ 64

/-- strlen on a payload address. -/
def strlen (m : Mem) (a : Nat) : Option Nat := findNul m a STRLEN_FUEL

/-- The whole mutable state of the runtime: the heap (struct Heap, src lines
139-152), the two stacks (src lines 79-120, slot granularity), the global
registers (src lines 122-136), one shared byte memory, and the malloc bump
counter `nextAlloc`. -/
structure State where
  mem : Mem
  heapData : Nat
  heapCursor : Nat
  heapCapacity : Nat
  nextAlloc : Nat
  sa : Nat → Nat
  saTop : Nat
  saBase : Nat
  saData : Nat
  sb : Nat → BItem
  sbTop : Nat
  sbBase : Nat
  sbData : Nat
  stringReg : Nat
  nodeReg : Nat
  constrUpdateReg : Nat
  intReg : Int
  tagReg : Int
  constrArgCountReg : Int

/-- Model address of the static variable table_pointer_for_null (src line 50):
a static object, so some fixed nonzero address.  The concrete value is a
modelling choice; only its cell contents and being nonzero matter. -/
def nullSentinelAddr : Nat := 16

/-- Initial value of g_IntRegister (src line 123). -/
def g_IntRegister_init : Int := 0xBAD

/-- Initial value of g_StringRegister (src line 128): the C source reads
uint8_t *g_StringRegister = NULL, and NULL is address 0. -/
def g_StringRegister_init : Nat := 0

/-- Initial value of g_TagRegister (src line 130). -/
def g_TagRegister_init : Int := 0xBAD

/-- Initial value of g_ConstructorArgCountRegister (src line 132). -/
def g_ConstructorArgCountRegister_init : Int := 0xBAD

/-- Initial value of g_NodeRegister (src line 134): the address of
table_pointer_for_null. -/
def g_NodeRegister_init : Nat := nullSentinelAddr

/-- Initial value of g_ConstrUpdateRegister (src line 136): the address of
table_pointer_for_null. -/
def g_ConstrUpdateRegister_init : Nat := nullSentinelAddr

/-- ASCII bytes of the text PANIC: written by panic (src line 8). -/
def PANIC_BYTES : List Nat := [80, 65, 78, 73, 67, 58]

/-- panic (src lines 7-11): writes PANIC: then the message to stderr and
exits with status -1 (nonzero).  Modelled as the produced stderr bytes and
the exit status. -/
def panic (message : List Nat) : List Nat × Int := (PANIC_BYTES ++ message, -1)

/-- read_ptr (src lines 185-189). -/
def read_ptr (m : Mem) (a : Nat) : Option Nat :=
  match m a with
  | Val.ptrV p => some p
  | _ => none

/-- read_int (src lines 192-196). -/
def read_int (m : Mem) (a : Nat) : Option Int :=
  match m a with
  | Val.intV n => some n
  | _ => none

/-- read_info_table (src lines 199-203). -/
def read_info_table (m : Mem) (a : Nat) : Option ITbl :=
  match m a with
  | Val.itblV t => some t
  | _ => none

/-- heap_cursor (src lines 155-157). -/
def heap_cursor (s : State) : Nat := s.heapCursor

/-- heap_write (src lines 159-162) for data already in memory: memcpy n bytes
from address src to the cursor and advance the cursor. -/
def heap_write (s : State) (src n : Nat) : State :=
  { s with mem := memcpyCells s.mem s.heapCursor src n, heapCursor := s.heapCursor + n }

/-- heap_write_ptr (src lines 165-167): writes an immediate pointer value. -/
def heap_write_ptr (s : State) (p : Nat) : State :=
  { s with mem := writeCells s.mem s.heapCursor (wordCells (Val.ptrV p)),
           heapCursor := s.heapCursor + 8 }

/-- heap_write_info_table (src lines 170-172). -/
def heap_write_info_table (s : State) (t : ITbl) : State :=
  { s with mem := writeCells s.mem s.heapCursor (wordCells (Val.itblV t)),
           heapCursor := s.heapCursor + 8 }

/-- heap_write_int (src lines 175-177). -/
def heap_write_int (s : State) (n : Int) : State :=
  { s with mem := writeCells s.mem s.heapCursor (wordCells (Val.intV n)),
           heapCursor := s.heapCursor + 8 }

/-- heap_write_uint16 (src lines 180-182). -/
def heap_write_uint16 (s : State) (n : Nat) : State :=
  { s with mem := writeCells s.mem s.heapCursor (u16Cells n),
           heapCursor := s.heapCursor + 2 }

/-- The target capacity computed at the top of collect_garbage (src lines
216-220): HEAP_GROWTH is the double 3, and for capacities below 2^53 the
double multiplication and conversion back to size_t are exact, so the model
uses 3 * capacity; used is old.cursor - old.data. -/
def collect_new_capacity (capacity used extra : Nat) : Nat :=
  if 3 * capacity < used + extra then used + extra else 3 * capacity

/-- static_evac (src lines 43-45): evacuating a static object returns its
current location and changes nothing. -/
def static_evac (s : State) (a : Nat) : Option (State × Nat) := some (s, a)

/-- already_evac (src lines 53-57): read the forwarding pointer stored right
after the info table of the old object. -/
def already_evac (s : State) (a : Nat) : Option (State × Nat) :=
  match read_ptr s.mem (a + 8) with
  | some r => some (s, r)
  | none => none

/-- string_evac (src lines 316-327): copy the info table and the
NUL-terminated payload (bytes = len + 1 cells) to the cursor, advance the
cursor by the copied size padded so the new object can hold a relocation,
then overwrite the old header with the already-evacuated table and the old
first payload word with the new address, and return the new address (the old
cursor).  The C statement sequence (heap_write; pad; two memcpy) is written
as one state value: the two header memcpys touch only mem, so they commute
with the cursor bookkeeping. -/
def string_evac (s : State) (a : Nat) : Option (State × Nat) :=
  match strlen s.mem (a + 8) with
  | none => none
  | some len =>
    some
      ({ s with
          mem :=
            writeCells
              (writeCells (memcpyCells s.mem s.heapCursor a (8 + (len + 1)))
                a (wordCells (Val.itblV ITbl.alreadyEvacT)))
              (a + 8) (wordCells (Val.ptrV s.heapCursor)),
          heapCursor :=
            if len + 1 < 8 then s.heapCursor + (8 + (len + 1)) + (8 - (len + 1))
            else s.heapCursor + (8 + (len + 1)) },
        s.heapCursor)

/-- Dispatch on the evac function pointer stored in an info table. -/
def evacFn : EvacKind → State → Nat → Option (State × Nat)
  | EvacKind.staticE => static_evac
  | EvacKind.alreadyE => already_evac
  | EvacKind.stringE => string_evac

/-- collect_root (src lines 208-210): read the info table of the closure the
root targets and run its evac; the caller stores the returned address back
into the root slot. -/
def collect_root (s : State) (a : Nat) : Option (State × Nat) :=
  match read_info_table s.mem a with
  | some t => evacFn (tableOf t).evac s a
  | none => none

/-- The loop over stack-A slots in collect_garbage (src lines 236-238). -/
def collectSA : State → List Nat → Option State
  | s, [] => some s
  | s, i :: is =>
    match collect_root s (s.sa i) with
    | none => none
    | some (s1, a1) => collectSA { s1 with sa := Function.update s1.sa i a1 } is

/-- The update-frame walk in collect_garbage (src lines 240-243): follow the
saved stack-B base chain from the current base down to the stack bottom and
evacuate the closure-to-update slot (offset 2) of each frame.  The fuel
bounds the walk; exhausting it models a chain that never reaches the
bottom (an infinite loop in C). -/
def collectFrames : Nat → Nat → State → Option State
  | 0, _, _ => none
  | fuel + 1, base, s =>
    if base = s.sbData then some s
    else
      match s.sb (base + 2) with
      | BItem.closureV c =>
        match collect_root s c with
        | none => none
        | some (s1, c1) =>
          match Function.update s1.sb (base + 2) (BItem.closureV c1) base with
          | BItem.sbBaseV nb =>
            collectFrames fuel nb
              { s1 with sb := Function.update s1.sb (base + 2) (BItem.closureV c1) }
          | _ => none
      | _ => none

/-- The string-register root step of collect_garbage (src lines 229-231):
the register is skipped when NULL. -/
def collect_string_reg (s : State) : Option State :=
  if s.stringReg ≠ 0 then
    match collect_root s s.stringReg with
    | none => none
    | some (t, a1) => some { t with stringReg := a1 }
  else some s

/-- The node-register root step of collect_garbage (src lines 232-234). -/
def collect_node_reg (s : State) : Option State :=
  if s.nodeReg ≠ 0 then
    match collect_root s s.nodeReg with
    | none => none
    | some (t, a1) => some { t with nodeReg := a1 }
  else some s

/-- The capacity-hiding step at the end of collect_garbage (src lines
249-253): if 3 times the live bytes is below the allocated capacity, lower
the capacity, without shrinking the allocation. -/
def heap_shrink (s : State) : State :=
  if 3 * (s.heapCursor - s.heapData) < s.heapCapacity
  then { s with heapCapacity := 3 * (s.heapCursor - s.heapData) }
  else s

/-- collect_garbage (src lines 213-256): size the new space, allocate it
(the bump on nextAlloc models the malloc), reset cursor and data into it,
evacuate the roots (string register, node register, the whole of stack A,
the update-frame chain on stack B), free the old space (a no-op here), then
hide capacity above 3 times the live bytes. -/
def collect_garbage (s : State) (extra : Nat) : Option State :=
  match collect_string_reg
      { s with
        heapData := s.nextAlloc, heapCursor := s.nextAlloc,
        heapCapacity := collect_new_capacity s.heapCapacity (s.heapCursor - s.heapData) extra,
        nextAlloc :=
          s.nextAlloc + collect_new_capacity s.heapCapacity (s.heapCursor - s.heapData) extra } with
  | none => none
  | some s2 =>
    match collect_node_reg s2 with
    | none => none
    | some s3 =>
      match collectSA s3 (List.range' s3.saData (s3.saTop - s3.saData)) with
      | none => none
      | some s4 =>
        match collectFrames (s4.sbBase + 1) s4.sbBase s4 with
        | none => none
        | some s5 => some (heap_shrink s5)

/-- heap_reserve (src lines 264-269). -/
def heap_reserve (s : State) (amount : Nat) : Option State :=
  if s.heapData + s.heapCapacity < s.heapCursor + amount then collect_garbage s amount
  else some s

/-- The write phase at the end of string_concat (src lines 302-312): write
the string info table, the first payload without its NUL, the second payload
with its NUL, then skip the relocation padding. -/
def concat_write (s1 : State) (d1 d2 len1 len2 extra : Nat) : State × Nat :=
  let ret := s1.heapCursor
  let s2 := heap_write_info_table s1 ITbl.stringT
  let s3 := heap_write s2 d1 len1
  let s4 := heap_write s3 d2 (len2 + 1)
  ({ s4 with heapCursor := s4.heapCursor + extra }, ret)

/-- The relocation padding of string_concat (src lines 282-288): required is
sizeof(InfoTable *) + len1 + len2 + 1, the minimum closure size is
sizeof(InfoTable *) + sizeof(uint8_t *) = 16, and the shortfall is added. -/
def concat_extra (len1 len2 : Nat) : Nat :=
  if 8 + (len1 + len2 + 1) < 16 then 16 - (8 + (len1 + len2 + 1)) else 0

/-- The bytes string_concat reserves: payload requirement plus padding. -/
def concat_required (len1 len2 : Nat) : Nat := 8 + (len1 + len2 + 1) + concat_extra len1 len2

/-- string_concat (src lines 275-313).  If the result does not fit, the two
argument strings are pushed onto stack A so that they are roots, collection
runs, and the possibly-moved addresses are read back from the stack before
the write phase. -/
def string_concat (s0 : State) (a1 a2 : Nat) : Option (State × Nat) :=
  match strlen s0.mem (a1 + 8), strlen s0.mem (a2 + 8) with
  | some len1, some len2 =>
    if s0.heapData + s0.heapCapacity < s0.heapCursor + concat_required len1 len2 then
      match collect_garbage
          { s0 with
            sa := Function.update (Function.update s0.sa s0.saTop a1) (s0.saTop + 1) a2,
            saTop := s0.saTop + 2 } (concat_required len1 len2) with
      | none => none
      | some sG =>
        some (concat_write { sG with saTop := sG.saTop - 2 }
          (sG.sa (sG.saTop - 2) + 8) (sG.sa (sG.saTop - 1) + 8) len1 len2
          (concat_extra len1 len2))
    else some (concat_write s0 (a1 + 8) (a2 + 8) len1 len2 (concat_extra len1 len2))
  | _, _ => none

/-- save_SB (src lines 330-334). -/
def save_SB (s : State) : State :=
  { s with sb := Function.update s.sb s.sbTop (BItem.sbBaseV s.sbBase),
           sbBase := s.sbTop, sbTop := s.sbTop + 1 }

/-- save_SA (src lines 337-341): the saved stack-A base goes onto stack B. -/
def save_SA (s : State) : State :=
  { s with sb := Function.update s.sb s.sbTop (BItem.saBaseV s.saBase),
           saBase := s.saTop, sbTop := s.sbTop + 1 }

/-- update_constructor (src lines 345-354): with its own label already popped
off stack B, drop four more slots, load the update register from the
closure-to-update slot, restore both saved bases, and return the code label
at the bottom of the frame. -/
def update_constructor (s : State) : Option (State × Nat) :=
  match s.sb (s.sbTop - 4 + 3), s.sb (s.sbTop - 4 + 2), s.sb (s.sbTop - 4 + 1),
        s.sb (s.sbTop - 4) with
  | BItem.closureV c, BItem.saBaseV ab, BItem.sbBaseV bb, BItem.codeV k =>
    some ({ s with sbTop := s.sbTop - 4, constrUpdateReg := c, saBase := ab, sbBase := bb }, k)
  | _, _, _, _ => none

/-- The frame-removal loop of check_application_update (src lines 389-392):
count iterations of sb[base + i] = sb[base + i + 4], performed in ascending
order. -/
def shiftLoop (sb : Nat → BItem) (base count : Nat) : Nat → BItem :=
  (List.range count).foldl (fun m i => Function.update m (base + i) (m (base + i + 4))) sb

/-- The slot indices the loop of shiftLoop reads, one per iteration, when run
with the count the source computes: above_frame = top - base + 4 (src line
389). -/
def sbReadIndices (base top : Nat) : List Nat :=
  (List.range (top - base + 4)).map (fun i => base + i + 4)

/-- Write count stack-A slots, starting at slot index start, into the heap
(the heap_write(g_SA.base, saved_A_size) call at src line 404: the stack
buffer holds closure pointers). -/
def writeSAslots : State → Nat → Nat → State
  | s, _, 0 => s
  | s, start, n + 1 => writeSAslots (heap_write_ptr s (s.sa start)) (start + 1) n

/-- Write count stack-B slots into the heap (src line 405). -/
def writeSBslots : State → Nat → Nat → State
  | s, _, 0 => s
  | s, start, n + 1 =>
    writeSBslots
      { s with mem := writeCells s.mem s.heapCursor (wordCells (Val.sbV (s.sb start))),
               heapCursor := s.heapCursor + 8 }
      (start + 1) n

/-- check_application_update (src lines 365-412).  Returns (state, none) for
the C NULL return (enough arguments: continue into the body); otherwise
builds the partial-application closure and returns the current label.  The
pointer subtractions that the source truncates to uint16_t are taken mod
2^16.  The source ends the insufficient-arguments path with a TODO comment
in place of installing the indirection over the old closure, so no write to
the old closure happens. -/
def asSbBase (x : BItem) : Option Nat :=
  match x with
  | BItem.sbBaseV i => some i
  | _ => none

def asSaBase (x : BItem) : Option Nat :=
  match x with
  | BItem.saBaseV i => some i
  | _ => none

def asClosure (x : BItem) : Option Nat :=
  match x with
  | BItem.closureV a => some a
  | _ => none

def check_application_update (s : State) (arg_count : Int) (current : Nat) :
    Option (State × Option Nat) :=
  if (s.saTop : Int) - (s.saBase : Int) ≥ arg_count then some (s, none)
  else
    match asSbBase (s.sb s.sbBase) with
    | none => none
    | some savedSBbase =>
      match asSaBase (s.sb (s.sbBase + 1)) with
      | none => none
      | some savedSAbase =>
        match heap_reserve s
            (8 + 8 + 8 * (((s.sbBase : Int) - (savedSBbase : Int)) % 65536).toNat
               + 8 * (((s.saBase : Int) - (savedSAbase : Int)) % 65536).toNat) with
        | none => none
        | some s1 =>
          match asClosure (s1.sb (s1.sbBase + 2)) with
          | none => none
          | some _closure =>
            let b_items : Nat := (((s.sbBase : Int) - (savedSBbase : Int)) % 65536).toNat
            let a_items : Nat := (((s.saBase : Int) - (savedSAbase : Int)) % 65536).toNat
            let s3 : State :=
              { s1 with sb := shiftLoop s1.sb s1.sbBase (s1.sbTop - s1.sbBase + 4),
                        sbTop := s1.sbTop - 4, saBase := savedSAbase, sbBase := savedSBbase }
            let s7 := writeSAslots (heap_write_uint16 (heap_write_uint16
                        (heap_write_info_table s3 ITbl.pappT) a_items) b_items) savedSAbase a_items
            some (writeSBslots s7 savedSBbase b_items, some current)

/-- Nonzero payload bytes of p stored at consecutive addresses from a,
without a terminator. -/
def storesInit (m : Mem) : Nat → List Nat → Prop
  | _, [] => True
  | a, b :: p => b ≠ 0 ∧ m a = Val.byteV b ∧ storesInit m (a + 1) p

/-- Nonzero payload bytes of p stored from a, followed by exactly one NUL. -/
def storesBytes (m : Mem) : Nat → List Nat → Prop
  | a, [] => m a = Val.byteV 0
  | a, b :: p => b ≠ 0 ∧ m a = Val.byteV b ∧ storesBytes m (a + 1) p

instance storesInit.dec (m : Mem) : (p : List Nat) → (a : Nat) → Decidable (storesInit m a p)
  | [], _ => inferInstanceAs (Decidable True)
  | b :: p, a =>
    have : Decidable (storesInit m (a + 1) p) := storesInit.dec m p (a + 1)
    inferInstanceAs (Decidable (b ≠ 0 ∧ m a = Val.byteV b ∧ storesInit m (a + 1) p))

instance storesBytes.dec (m : Mem) : (p : List Nat) → (a : Nat) → Decidable (storesBytes m a p)
  | [], a => inferInstanceAs (Decidable (m a = Val.byteV 0))
  | b :: p, a =>
    have : Decidable (storesBytes m (a + 1) p) := storesBytes.dec m p (a + 1)
    inferInstanceAs (Decidable (b ≠ 0 ∧ m a = Val.byteV b ∧ storesBytes m (a + 1) p))

/-- A heap string closure at address a with payload p: the string info table
in the header and the NUL-terminated payload after it (src section on
strings; closure shape [info-table][payload]). -/
def storesString (m : Mem) (a : Nat) (p : List Nat) : Prop :=
  m a = Val.itblV ITbl.stringT ∧ storesBytes m (a + 8) p

instance (m : Mem) (a : Nat) (p : List Nat) : Decidable (storesString m a p) :=
  inferInstanceAs (Decidable (_ ∧ _))

/-- Total heap footprint of a string closure with payload length len: header
plus payload plus NUL, padded so the object can hold a relocation
([InfoTable*][ptr] is the minimum size). -/
def strSpan (len : Nat) : Nat := 8 + max (len + 1) 8

/-- Size-level model of collect_garbage (src lines 213-256), for claims that
are purely about heap arithmetic: the evacuation phase is abstracted by the
number of bytes it copies into the new space, `live`, which for a
well-formed heap never exceeds the used bytes of the old space.  used is
cursor - data. -/
structure HeapSz where
  used : Nat
  capacity : Nat
deriving DecidableEq

/-- Size-level collect_garbage: new capacity, copy live bytes, shrink. -/
def collect_garbage_sz (h : HeapSz) (live extra : Nat) : HeapSz :=
  ⟨live,
   if 3 * live < collect_new_capacity h.capacity h.used extra
   then 3 * live
   else collect_new_capacity h.capacity h.used extra⟩

/-- Size-level heap_reserve (src lines 264-269). -/
def heap_reserve_sz (h : HeapSz) (live amount : Nat) : HeapSz :=
  if h.capacity < h.used + amount then collect_garbage_sz h live amount else h

/-! Concrete scenario states used by witnesses and counterexamples. -/

/-- A memory holding only the null-sentinel cell. -/
def memSentinel : Mem := fun a => if a = nullSentinelAddr then Val.itblV ITbl.nullT else Val.undef

/-- A quiescent state right after setup-like initialisation: empty stacks,
registers at their initial values, an empty heap at 1000 with capacity 128,
fresh allocations starting at 2000. -/
def baseState : State where
  mem := memSentinel
  heapData := 1000
  heapCursor := 1000
  heapCapacity := 128
  nextAlloc := 2000
  sa := fun _ => 0
  saTop := 0
  saBase := 0
  saData := 0
  sb := fun _ => BItem.intV 0
  sbTop := 0
  sbBase := 0
  sbData := 0
  stringReg := g_StringRegister_init
  nodeReg := g_NodeRegister_init
  constrUpdateReg := g_ConstrUpdateRegister_init
  intReg := g_IntRegister_init
  tagReg := g_TagRegister_init
  constrArgCountReg := g_ConstructorArgCountRegister_init

/-- A heap entirely full of unreachable data: cursor at data + capacity,
no roots. -/
def CE1 : State := { baseState with heapCursor := 1128 }

/-- A small heap, 10 used bytes, all unreachable, no roots. -/
def CE5 : State := { baseState with heapCapacity := 10, heapCursor := 1010 }

/-- Stack B holding a return continuation (slot 0) below one update frame
(slots 1-4): saved SB base, saved SA base, closure to update at 500, and the
update label. -/
def sbFrameDemo : Nat → BItem := fun i =>
  if i = 0 then BItem.codeV 77
  else if i = 1 then BItem.sbBaseV 0
  else if i = 2 then BItem.saBaseV 0
  else if i = 3 then BItem.closureV 500
  else if i = 4 then BItem.codeV 99
  else BItem.intV 0

/-- A state about to run the insufficient-arguments path: one argument on
stack A pushed before the update frame, no arguments after it, the update
frame of sbFrameDemo on stack B, and a heap with room (no collection). -/
def S2cb : State :=
  { baseState with
    mem := fun _ => Val.undef
    heapData := 900
    heapCursor := 1000
    heapCapacity := 200
    sa := fun i => if i = 0 then 600 else 0
    saTop := 1
    saBase := 1
    sb := sbFrameDemo
    sbTop := 5
    sbBase := 1 }

/-- A memory holding the sentinel plus two heap string closures: payload
byte 97 at address 100 and payload byte 98 at address 120. -/
def memTwoStrings : Mem := fun a =>
  if a = nullSentinelAddr then Val.itblV ITbl.nullT
  else if a = 100 then Val.itblV ITbl.stringT
  else if a = 108 then Val.byteV 97
  else if a = 109 then Val.byteV 0
  else if a = 120 then Val.itblV ITbl.stringT
  else if a = 128 then Val.byteV 98
  else if a = 129 then Val.byteV 0
  else Val.undef

/-- A state holding the two string closures of memTwoStrings, with a heap
cursor above them at 200 and a nearly-full heap. -/
def W48 : State :=
  { baseState with mem := memTwoStrings, heapData := 190, heapCursor := 200, heapCapacity := 4 }

/-- Stack B right after the dispatch loop popped the update_constructor
label: the remaining four frame slots are 1-4. -/
def sbUpdDemo : Nat → BItem := fun i =>
  if i = 1 then BItem.codeV 42
  else if i = 2 then BItem.sbBaseV 0
  else if i = 3 then BItem.saBaseV 0
  else if i = 4 then BItem.closureV 500
  else BItem.intV 0

/-- A state in which update_constructor is about to run. -/
def W6 : State := { baseState with sb := sbUpdDemo, sbTop := 5, sbBase := 1 }

/-- A stack-B memory whose slot i holds the integer i, to make reads
observable. -/
def SB10 : Nat → BItem := fun i => BItem.intV (Int.ofNat i)

/-- The state collect_garbage produces from CE5 with 100 extra bytes. -/
def RES5 : State := (collect_garbage CE5 100).getD CE5

end RT

namespace RT

/-! ## Helper lemmas about the memory model -/

theorem writeCells_lo (vs : List Val) : ∀ (m : Mem) (a x : Nat), x < a →
    writeCells m a vs x = m x := by
  induction vs with
  | nil => intro m a x _; rfl
  | cons v tl ih =>
    intro m a x hx
    show writeCells (Function.update m a v) (a + 1) tl x = m x
    rw [ih _ _ _ (by omega), Function.update_noteq (by omega)]

theorem writeCells_hi (vs : List Val) : ∀ (m : Mem) (a x : Nat), a + vs.length ≤ x →
    writeCells m a vs x = m x := by
  induction vs with
  | nil => intro m a x _; rfl
  | cons v tl ih =>
    intro m a x hx
    rw [List.length_cons] at hx
    show writeCells (Function.update m a v) (a + 1) tl x = m x
    rw [ih _ _ _ (by omega), Function.update_noteq (by omega)]

theorem writeCells_head (m : Mem) (a : Nat) (v : Val) (tl : List Val) :
    writeCells m a (v :: tl) a = v := by
  show writeCells (Function.update m a v) (a + 1) tl a = v
  rw [writeCells_lo tl _ _ _ (by omega), Function.update_same]

theorem memcpyCells_out : ∀ (n : Nat) (m : Mem) (dst src x : Nat), x < dst ∨ dst + n ≤ x →
    memcpyCells m dst src n x = m x := by
  intro n
  induction n with
  | zero => intro m dst src x _; rfl
  | succ k ih =>
    intro m dst src x hx
    show memcpyCells (Function.update m dst (m src)) (dst + 1) (src + 1) k x = m x
    rw [ih _ _ _ _ (by omega), Function.update_noteq (by omega)]

theorem memcpyCells_in : ∀ (n : Nat) (m : Mem) (dst src : Nat),
    dst + n ≤ src ∨ src + n ≤ dst → ∀ i, i < n →
    memcpyCells m dst src n (dst + i) = m (src + i) := by
  intro n
  induction n with
  | zero => intro m dst src _ i hi; exact absurd hi (Nat.not_lt_zero i)
  | succ k ih =>
    intro m dst src hdisj i hi
    show memcpyCells (Function.update m dst (m src)) (dst + 1) (src + 1) k (dst + i) = m (src + i)
    cases i with
    | zero =>
      simp only [Nat.add_zero]
      rw [memcpyCells_out k _ _ _ _ (by omega), Function.update_same]
    | succ j =>
      rw [show dst + (j + 1) = dst + 1 + j by omega,
          ih _ _ _ (by omega) j (by omega),
          Function.update_noteq (by omega)]
      congr 1
      omega

theorem storesInit_copy : ∀ (p : List Nat) (m2 m1 : Mem) (d c : Nat),
    (∀ i, i < p.length → m2 (d + i) = m1 (c + i)) → storesInit m1 c p → storesInit m2 d p := by
  intro p
  induction p with
  | nil => intro _ _ _ _ _ _; trivial
  | cons b tl ih =>
    intro m2 m1 d c hag h
    obtain ⟨hb, hc, htl⟩ := h
    refine ⟨hb, ?_, ?_⟩
    · have h0 := hag 0 (by simp)
      rw [Nat.add_zero, Nat.add_zero] at h0
      rw [h0]
      exact hc
    · refine ih m2 m1 (d + 1) (c + 1) ?_ htl
      intro i hi
      have hh := hag (i + 1) (by rw [List.length_cons]; omega)
      rw [show d + (i + 1) = d + 1 + i by omega, show c + (i + 1) = c + 1 + i by omega] at hh
      exact hh

theorem storesBytes_copy : ∀ (p : List Nat) (m2 m1 : Mem) (d c : Nat),
    (∀ i, i < p.length + 1 → m2 (d + i) = m1 (c + i)) → storesBytes m1 c p → storesBytes m2 d p := by
  intro p
  induction p with
  | nil =>
    intro m2 m1 d c hag h
    have h0 := hag 0 (by simp)
    rw [Nat.add_zero, Nat.add_zero] at h0
    show m2 d = Val.byteV 0
    rw [h0]
    exact h
  | cons b tl ih =>
    intro m2 m1 d c hag h
    obtain ⟨hb, hc, htl⟩ := h
    refine ⟨hb, ?_, ?_⟩
    · have h0 := hag 0 (by simp)
      rw [Nat.add_zero, Nat.add_zero] at h0
      rw [h0]
      exact hc
    · refine ih m2 m1 (d + 1) (c + 1) ?_ htl
      intro i hi
      have hh := hag (i + 1) (by rw [List.length_cons]; omega)
      rw [show d + (i + 1) = d + 1 + i by omega, show c + (i + 1) = c + 1 + i by omega] at hh
      exact hh

theorem storesInit_of_storesBytes : ∀ (p : List Nat) (m : Mem) (a : Nat),
    storesBytes m a p → storesInit m a p := by
  intro p
  induction p with
  | nil => intro _ _ _; trivial
  | cons b tl ih => intro m a h; exact ⟨h.1, h.2.1, ih m (a + 1) h.2.2⟩

theorem storesBytes_append : ∀ (p q : List Nat) (m : Mem) (a : Nat),
    storesInit m a p → storesBytes m (a + p.length) q → storesBytes m a (p ++ q) := by
  intro p
  induction p with
  | nil =>
    intro q m a _ hq
    rw [List.length_nil, Nat.add_zero] at hq
    exact hq
  | cons b tl ih =>
    intro q m a hp hq
    refine ⟨hp.1, hp.2.1, ?_⟩
    refine ih q m (a + 1) hp.2.2 ?_
    rw [show a + 1 + tl.length = a + (b :: tl).length by rw [List.length_cons]; omega]
    exact hq

theorem findNul_of_storesBytes : ∀ (p : List Nat) (m : Mem) (a fuel : Nat),
    storesBytes m a p → p.length < fuel → findNul m a fuel = some p.length := by
  intro p
  induction p with
  | nil =>
    intro m a fuel h hf
    cases fuel with
    | zero => exact absurd hf (by omega)
    | succ f =>
      show findNul m a (f + 1) = some 0
      unfold findNul
      rw [show m a = Val.byteV 0 from h]
  | cons b tl ih =>
    intro m a fuel h hf
    cases fuel with
    | zero => exact absurd hf (by omega)
    | succ f =>
      obtain ⟨hb, hma, htl⟩ := h
      rw [List.length_cons] at hf
      unfold findNul
      rw [hma]
      cases b with
      | zero => exact absurd rfl hb
      | succ k =>
        show (findNul m (a + 1) f).map (· + 1) = some ((k + 1) :: tl).length
        rw [ih m (a + 1) f htl (by omega)]
        rfl

theorem strlen_of_storesBytes (m : Mem) (a : Nat) (p : List Nat)
    (h : storesBytes m a p) (hl : p.length < STRLEN_FUEL) : strlen m a = some p.length :=
  findNul_of_storesBytes p m a STRLEN_FUEL h hl

theorem strSpan_lower (len : Nat) : 9 + len ≤ strSpan len := by
  unfold strSpan
  have := Nat.le_max_left (len + 1) 8
  omega

theorem strSpan_sixteen (len : Nat) : 16 ≤ strSpan len := by
  unfold strSpan
  have := Nat.le_max_right (len + 1) 8
  omega

theorem wordCells_length (v : Val) : (wordCells v).length = 8 := rfl

theorem writeCells_word_head (m : Mem) (a : Nat) (v : Val) :
    writeCells m a (wordCells v) a = v :=
  writeCells_head m a v (List.replicate 7 Val.pad)

/-- Full specification of string_evac on a well-formed string closure whose
span lies below the heap cursor: it returns the old cursor as the new
address, advances the cursor by the padded object size, copies the closure
(header and payload) to the new address, installs the already-evacuated
header and the forwarding pointer over the old object, and touches no other
memory. -/
theorem string_evac_spec (s : State) (a : Nat) (p : List Nat)
    (h : storesString s.mem a p) (hlen : p.length < STRLEN_FUEL)
    (hbelow : a + strSpan p.length ≤ s.heapCursor) :
    ∃ M : Mem,
      string_evac s a =
        some ({ s with mem := M, heapCursor := s.heapCursor + strSpan p.length }, s.heapCursor) ∧
      storesString M s.heapCursor p ∧
      M a = Val.itblV ITbl.alreadyEvacT ∧
      M (a + 8) = Val.ptrV s.heapCursor ∧
      (∀ x, (x < a ∨ a + 16 ≤ x) → (x < s.heapCursor ∨ s.heapCursor + strSpan p.length ≤ x) →
        M x = s.mem x) := by
  obtain ⟨hhdr, hbytes⟩ := h
  have hsl : strlen s.mem (a + 8) = some p.length := strlen_of_storesBytes _ _ _ hbytes hlen
  have h9 := strSpan_lower p.length
  have h16 := strSpan_sixteen p.length
  refine ⟨writeCells (writeCells (memcpyCells s.mem s.heapCursor a (8 + (p.length + 1)))
      a (wordCells (Val.itblV ITbl.alreadyEvacT))) (a + 8) (wordCells (Val.ptrV s.heapCursor)),
    ?_, ⟨?_, ?_⟩, ?_, ?_, ?_⟩
  · have hcur : (if p.length + 1 < 8
        then s.heapCursor + (8 + (p.length + 1)) + (8 - (p.length + 1))
        else s.heapCursor + (8 + (p.length + 1))) = s.heapCursor + strSpan p.length := by
      unfold strSpan
      split
      · rw [Nat.max_eq_right (by omega)]
        omega
      · rw [Nat.max_eq_left (by omega)]
    simp only [string_evac, hsl]
    rw [hcur]
  · -- the header cell of the new copy
    rw [writeCells_hi _ _ _ _ (by rw [wordCells_length]; omega),
        writeCells_hi _ _ _ _ (by rw [wordCells_length]; omega)]
    have h1 := memcpyCells_in (8 + (p.length + 1)) s.mem s.heapCursor a (by omega) 0 (by omega)
    simp only [Nat.add_zero] at h1
    rw [h1, hhdr]
  · -- the payload of the new copy
    refine storesBytes_copy p _ s.mem (s.heapCursor + 8) (a + 8) ?_ hbytes
    intro i hi
    rw [show s.heapCursor + 8 + i = s.heapCursor + (8 + i) by omega,
        show a + 8 + i = a + (8 + i) by omega]
    rw [writeCells_hi _ _ _ _ (by rw [wordCells_length]; omega),
        writeCells_hi _ _ _ _ (by rw [wordCells_length]; omega)]
    exact memcpyCells_in (8 + (p.length + 1)) s.mem s.heapCursor a (by omega) (8 + i) (by omega)
  · -- the already-evacuated header over the old object
    rw [writeCells_lo _ _ _ _ (by omega), writeCells_word_head]
  · -- the forwarding pointer over the old first payload word
    rw [writeCells_word_head]
  · -- frame: all other memory is untouched
    intro x hx1 hx2
    have hmem : memcpyCells s.mem s.heapCursor a (8 + (p.length + 1)) x = s.mem x :=
      memcpyCells_out _ _ _ _ _ (by omega)
    rcases hx1 with hx1 | hx1
    · rw [writeCells_lo _ _ _ _ (by omega), writeCells_lo _ _ _ _ (by omega), hmem]
    · rw [writeCells_hi _ _ _ _ (by rw [wordCells_length]; omega),
          writeCells_hi _ _ _ _ (by rw [wordCells_length]; omega), hmem]

/-! ## Helper lemmas about the collector steps -/

theorem string_evac_nextAlloc {s : State} {a : Nat} {s1 : State} {a1 : Nat}
    (h : string_evac s a = some (s1, a1)) : s1.nextAlloc = s.nextAlloc := by
  unfold string_evac at h
  split at h
  · exact Option.noConfusion h
  · simp only [Option.some.injEq, Prod.mk.injEq] at h
    rw [← h.1]

theorem already_evac_nextAlloc {s : State} {a : Nat} {s1 : State} {a1 : Nat}
    (h : already_evac s a = some (s1, a1)) : s1.nextAlloc = s.nextAlloc := by
  unfold already_evac at h
  split at h
  · simp only [Option.some.injEq, Prod.mk.injEq] at h
    rw [← h.1]
  · exact Option.noConfusion h

theorem collect_root_nextAlloc {s : State} {a : Nat} {s1 : State} {a1 : Nat}
    (h : collect_root s a = some (s1, a1)) : s1.nextAlloc = s.nextAlloc := by
  unfold collect_root at h
  split at h
  · rename_i t ht
    cases hev : (tableOf t).evac with
    | staticE =>
      rw [hev] at h
      unfold evacFn static_evac at h
      simp only [Option.some.injEq, Prod.mk.injEq] at h
      rw [← h.1]
    | alreadyE =>
      rw [hev] at h
      unfold evacFn at h
      exact already_evac_nextAlloc h
    | stringE =>
      rw [hev] at h
      unfold evacFn at h
      exact string_evac_nextAlloc h
  · exact Option.noConfusion h

theorem collectSA_nextAlloc : ∀ (l : List Nat) (s s4 : State),
    collectSA s l = some s4 → s4.nextAlloc = s.nextAlloc := by
  intro l
  induction l with
  | nil =>
    intro s s4 h
    unfold collectSA at h
    simp only [Option.some.injEq] at h
    rw [← h]
  | cons i is ih =>
    intro s s4 h
    unfold collectSA at h
    split at h
    · exact Option.noConfusion h
    · rename_i s1 a1 hroot
      rw [ih _ _ h]
      show s1.nextAlloc = s.nextAlloc
      exact collect_root_nextAlloc hroot

theorem collectFrames_nextAlloc : ∀ (fuel base : Nat) (s s5 : State),
    collectFrames fuel base s = some s5 → s5.nextAlloc = s.nextAlloc := by
  intro fuel
  induction fuel with
  | zero => intro base s s5 h; exact Option.noConfusion h
  | succ f ih =>
    intro base s s5 h
    unfold collectFrames at h
    split at h
    · simp only [Option.some.injEq] at h
      rw [← h]
    · split at h
      · split at h
        · exact Option.noConfusion h
        · rename_i s1 c1 hroot
          split at h
          · rw [ih _ _ _ h]
            show s1.nextAlloc = s.nextAlloc
            exact collect_root_nextAlloc hroot
          · exact Option.noConfusion h
      · exact Option.noConfusion h

theorem collect_string_reg_nextAlloc {s s2 : State}
    (h : collect_string_reg s = some s2) : s2.nextAlloc = s.nextAlloc := by
  unfold collect_string_reg at h
  split at h
  · split at h
    · exact Option.noConfusion h
    · rename_i t a1 hroot
      simp only [Option.some.injEq] at h
      rw [← h]
      show t.nextAlloc = s.nextAlloc
      exact collect_root_nextAlloc hroot
  · simp only [Option.some.injEq] at h
    rw [← h]

theorem collect_node_reg_nextAlloc {s s2 : State}
    (h : collect_node_reg s = some s2) : s2.nextAlloc = s.nextAlloc := by
  unfold collect_node_reg at h
  split at h
  · split at h
    · exact Option.noConfusion h
    · rename_i t a1 hroot
      simp only [Option.some.injEq] at h
      rw [← h]
      show t.nextAlloc = s.nextAlloc
      exact collect_root_nextAlloc hroot
  · simp only [Option.some.injEq] at h
    rw [← h]

theorem heap_shrink_nextAlloc (s : State) : (heap_shrink s).nextAlloc = s.nextAlloc := by
  unfold heap_shrink
  split <;> rfl

theorem collect_new_capacity_eq_max (c u e : Nat) :
    collect_new_capacity c u e = max (3 * c) (u + e) := by
  unfold collect_new_capacity
  simp only [Nat.max_def]
  split <;> split <;> omega

/-! ## Forward-execution lemmas for the collector on concrete root shapes -/

theorem collectSA_nil (s : State) : collectSA s [] = some s := rfl

theorem collectSA_cons {s s1 : State} {a1 i : Nat} (is : List Nat)
    (h : collect_root s (s.sa i) = some (s1, a1)) :
    collectSA s (i :: is) = collectSA { s1 with sa := Function.update s1.sa i a1 } is := by
  show (match collect_root s (s.sa i) with
        | none => none
        | some (s1, a1) => collectSA { s1 with sa := Function.update s1.sa i a1 } is) =
      collectSA { s1 with sa := Function.update s1.sa i a1 } is
  rw [h]

theorem collectFrames_done (fuel base : Nat) (s : State) (h : base = s.sbData) :
    collectFrames (fuel + 1) base s = some s := by
  unfold collectFrames
  rw [if_pos h]

theorem collect_string_reg_of_zero {s : State} (h : s.stringReg = 0) :
    collect_string_reg s = some s := by
  unfold collect_string_reg
  rw [if_neg (by simp [h])]

theorem collect_node_reg_of_null {s : State} (h : s.mem s.nodeReg = Val.itblV ITbl.nullT) :
    collect_node_reg s = some s := by
  unfold collect_node_reg
  by_cases hz : s.nodeReg = 0
  · rw [if_neg (by simp [hz])]
  · rw [if_pos hz]
    have hcr : collect_root s s.nodeReg = some (s, s.nodeReg) := by
      unfold collect_root
      rw [show read_info_table s.mem s.nodeReg = some ITbl.nullT from by
        unfold read_info_table
        rw [h]]
      rfl
    rw [hcr]

theorem heap_shrink_mem (s : State) : (heap_shrink s).mem = s.mem := by
  unfold heap_shrink
  split <;> rfl

theorem heap_shrink_cursor (s : State) : (heap_shrink s).heapCursor = s.heapCursor := by
  unfold heap_shrink
  split <;> rfl

theorem heap_shrink_sa (s : State) : (heap_shrink s).sa = s.sa := by
  unfold heap_shrink
  split <;> rfl

theorem heap_shrink_saTop (s : State) : (heap_shrink s).saTop = s.saTop := by
  unfold heap_shrink
  split <;> rfl

/-- Composition of the collector phases: collect_garbage is the sequence of
the allocation of the new space, the two register roots, the stack-A sweep,
the frame walk, and the shrink step. -/
theorem collect_garbage_eq {s : State} {extra : Nat} {sA sB sC sD : State}
    (hA : collect_string_reg
        { s with
          heapData := s.nextAlloc
          heapCursor := s.nextAlloc
          heapCapacity := collect_new_capacity s.heapCapacity (s.heapCursor - s.heapData) extra
          nextAlloc :=
            s.nextAlloc + collect_new_capacity s.heapCapacity (s.heapCursor - s.heapData) extra }
      = some sA)
    (hB : collect_node_reg sA = some sB)
    (hC : collectSA sB (List.range' sB.saData (sB.saTop - sB.saData)) = some sC)
    (hD : collectFrames (sC.sbBase + 1) sC.sbBase sC = some sD) :
    collect_garbage s extra = some (heap_shrink sD) := by
  unfold collect_garbage
  rw [hA]
  dsimp only
  rw [hB]
  dsimp only
  rw [hC]
  dsimp only
  rw [hD]

/-! ## The concat write phase and the two-string collection -/

/-- The write phase of string_concat writes a fresh string closure at the
old cursor whose payload is the first payload followed by the second payload
and its NUL. -/
theorem concat_write_spec (s1 : State) (d1 d2 : Nat) (p1 p2 : List Nat) (extra : Nat)
    (h1 : storesInit s1.mem d1 p1) (h2 : storesBytes s1.mem d2 p2)
    (hd1 : d1 + p1.length ≤ s1.heapCursor) (hd2 : d2 + (p2.length + 1) ≤ s1.heapCursor) :
    (concat_write s1 d1 d2 p1.length p2.length extra).2 = s1.heapCursor ∧
    storesString (concat_write s1 d1 d2 p1.length p2.length extra).1.mem
      s1.heapCursor (p1 ++ p2) := by
  refine ⟨rfl, ?_, ?_⟩
  · -- the header cell
    show memcpyCells (memcpyCells (writeCells s1.mem s1.heapCursor
          (wordCells (Val.itblV ITbl.stringT))) (s1.heapCursor + 8) d1 p1.length)
        (s1.heapCursor + 8 + p1.length) d2 (p2.length + 1) s1.heapCursor
      = Val.itblV ITbl.stringT
    rw [memcpyCells_out _ _ _ _ _ (by omega), memcpyCells_out _ _ _ _ _ (by omega),
        writeCells_word_head]
  · -- the payload
    refine storesBytes_append p1 p2 _ (s1.heapCursor + 8) ?_ ?_
    · refine storesInit_copy p1 _ s1.mem (s1.heapCursor + 8) d1 ?_ h1
      intro i hi
      show memcpyCells (memcpyCells (writeCells s1.mem s1.heapCursor
            (wordCells (Val.itblV ITbl.stringT))) (s1.heapCursor + 8) d1 p1.length)
          (s1.heapCursor + 8 + p1.length) d2 (p2.length + 1) (s1.heapCursor + 8 + i)
        = s1.mem (d1 + i)
      rw [memcpyCells_out _ _ _ _ _ (by omega),
          memcpyCells_in p1.length _ (s1.heapCursor + 8) d1 (by omega) i hi,
          writeCells_lo _ _ _ _ (by omega)]
    · refine storesBytes_copy p2 _ s1.mem (s1.heapCursor + 8 + p1.length) d2 ?_ h2
      intro j hj
      show memcpyCells (memcpyCells (writeCells s1.mem s1.heapCursor
            (wordCells (Val.itblV ITbl.stringT))) (s1.heapCursor + 8) d1 p1.length)
          (s1.heapCursor + 8 + p1.length) d2 (p2.length + 1) (s1.heapCursor + 8 + p1.length + j)
        = s1.mem (d2 + j)
      rw [memcpyCells_in (p2.length + 1) _ (s1.heapCursor + 8 + p1.length) d2 (by omega) j hj,
          memcpyCells_out _ _ _ _ _ (by omega),
          writeCells_lo _ _ _ _ (by omega)]

/-- Evacuating the two stack-A slots holding two disjoint heap string
closures: both strings are copied, in slot order, to the cursor of the new
space and the slots are redirected to the copies. -/
theorem collectSA_two_strings (t : State) (a1 a2 : Nat) (p1 p2 : List Nat)
    (h1 : storesString t.mem a1 p1) (h2 : storesString t.mem a2 p2)
    (hlen1 : p1.length < STRLEN_FUEL) (hlen2 : p2.length < STRLEN_FUEL)
    (hd : a1 + strSpan p1.length ≤ a2 ∨ a2 + strSpan p2.length ≤ a1)
    (hb1 : a1 + strSpan p1.length ≤ t.heapCursor)
    (hb2 : a2 + strSpan p2.length ≤ t.heapCursor)
    (hsl1 : t.sa t.saData = a1) (hsl2 : t.sa (t.saData + 1) = a2) :
    ∃ M : Mem,
      collectSA t [t.saData, t.saData + 1] =
        some { t with
               mem := M
               heapCursor := t.heapCursor + strSpan p1.length + strSpan p2.length
               sa := Function.update (Function.update t.sa t.saData t.heapCursor)
                       (t.saData + 1) (t.heapCursor + strSpan p1.length) } ∧
      storesString M t.heapCursor p1 ∧
      storesString M (t.heapCursor + strSpan p1.length) p2 := by
  have h9a := strSpan_lower p1.length
  have h16a := strSpan_sixteen p1.length
  have h9b := strSpan_lower p2.length
  have h16b := strSpan_sixteen p2.length
  obtain ⟨M1, hev1, hcopy1, hhdr1, hfwd1, hframe1⟩ := string_evac_spec t a1 p1 h1 hlen1 hb1
  set T1 : State := { t with mem := M1, heapCursor := t.heapCursor + strSpan p1.length }
    with hT1def
  have hroot1 : collect_root t (t.sa t.saData) = some (T1, t.heapCursor) := by
    rw [hsl1]
    unfold collect_root
    rw [show read_info_table t.mem a1 = some ITbl.stringT from by
      unfold read_info_table
      rw [h1.1]]
    exact hev1
  have hstep1 := collectSA_cons [t.saData + 1] hroot1
  set U1 : State := { T1 with sa := Function.update T1.sa t.saData t.heapCursor } with hU1def
  have hU1mem : U1.mem = M1 := rfl
  have hU1cur : U1.heapCursor = t.heapCursor + strSpan p1.length := rfl
  have hU1sa : U1.sa = Function.update t.sa t.saData t.heapCursor := rfl
  have hm2 : storesString M1 a2 p2 := by
    refine ⟨?_, ?_⟩
    · rw [hframe1 a2 (by rcases hd with hd | hd <;> omega) (by omega)]
      exact h2.1
    · refine storesBytes_copy p2 M1 t.mem (a2 + 8) (a2 + 8) ?_ h2.2
      intro i hi
      exact hframe1 (a2 + 8 + i) (by rcases hd with hd | hd <;> omega) (by omega)
  obtain ⟨M2, hev2, hcopy2, hhdr2, hfwd2, hframe2⟩ :=
    string_evac_spec U1 a2 p2 (by rw [hU1mem]; exact hm2) hlen2 (by rw [hU1cur]; omega)
  set T2 : State := { U1 with mem := M2, heapCursor := U1.heapCursor + strSpan p2.length }
    with hT2def
  have hroot2 : collect_root U1 (U1.sa (t.saData + 1)) = some (T2, U1.heapCursor) := by
    rw [show U1.sa (t.saData + 1) = a2 from by
      rw [hU1sa, Function.update_noteq (by omega)]
      exact hsl2]
    unfold collect_root
    rw [show read_info_table U1.mem a2 = some ITbl.stringT from by
      unfold read_info_table
      rw [hU1mem, hm2.1]]
    exact hev2
  have hstep2 := collectSA_cons ([] : List Nat) hroot2
  set U2 : State := { T2 with sa := Function.update T2.sa (t.saData + 1) U1.heapCursor }
    with hU2def
  have hchain : collectSA t [t.saData, t.saData + 1] = some U2 :=
    hstep1.trans (hstep2.trans (collectSA_nil U2))
  refine ⟨M2, ?_, ?_, ?_⟩
  · exact hchain
  · refine ⟨?_, ?_⟩
    · rw [hframe2 t.heapCursor (by omega) (by omega), hU1mem]
      exact hcopy1.1
    · refine storesBytes_copy p1 M2 M1 (t.heapCursor + 8) (t.heapCursor + 8) ?_ hcopy1.2
      intro i hi
      rw [hframe2 (t.heapCursor + 8 + i) (by omega) (by omega), hU1mem]
  · exact hcopy2

/-- Collection in a benign environment: stack A holds exactly two heap
string closures (pushed by string_concat), the string register is NULL, the
node register points at the null sentinel, and there is no update frame.
Both strings are copied to the new space, in order, and the stack slots are
redirected to the copies. -/
theorem collect_two (s : State) (a1 a2 : Nat) (p1 p2 : List Nat) (extra : Nat)
    (h1 : storesString s.mem a1 p1) (h2 : storesString s.mem a2 p2)
    (hlen1 : p1.length < STRLEN_FUEL) (hlen2 : p2.length < STRLEN_FUEL)
    (hd : a1 + strSpan p1.length ≤ a2 ∨ a2 + strSpan p2.length ≤ a1)
    (hc1 : a1 + strSpan p1.length ≤ s.nextAlloc)
    (hc2 : a2 + strSpan p2.length ≤ s.nextAlloc)
    (hsr : s.stringReg = 0)
    (hnr : s.mem s.nodeReg = Val.itblV ITbl.nullT)
    (hsa2 : s.saTop = s.saData + 2)
    (hsl1 : s.sa s.saData = a1) (hsl2 : s.sa (s.saData + 1) = a2)
    (hsb : s.sbBase = s.sbData) :
    ∃ S : State, collect_garbage s extra = some S ∧
      S.heapCursor = s.nextAlloc + strSpan p1.length + strSpan p2.length ∧
      S.saTop = s.saTop ∧
      S.sa s.saData = s.nextAlloc ∧
      S.sa (s.saData + 1) = s.nextAlloc + strSpan p1.length ∧
      storesString S.mem s.nextAlloc p1 ∧
      storesString S.mem (s.nextAlloc + strSpan p1.length) p2 := by
  set BIG : State :=
    { s with
      heapData := s.nextAlloc
      heapCursor := s.nextAlloc
      heapCapacity := collect_new_capacity s.heapCapacity (s.heapCursor - s.heapData) extra
      nextAlloc :=
        s.nextAlloc + collect_new_capacity s.heapCapacity (s.heapCursor - s.heapData) extra }
    with hBIGdef
  have hBmem : BIG.mem = s.mem := rfl
  have hBcur : BIG.heapCursor = s.nextAlloc := rfl
  have hBsa : BIG.sa = s.sa := rfl
  have hBsaData : BIG.saData = s.saData := rfl
  have hBsaTop : BIG.saTop = s.saTop := rfl
  obtain ⟨M, hSA, hq1, hq2⟩ :=
    collectSA_two_strings BIG a1 a2 p1 p2 (by rw [hBmem]; exact h1) (by rw [hBmem]; exact h2)
      hlen1 hlen2 hd (by rw [hBcur]; exact hc1) (by rw [hBcur]; exact hc2)
      (by rw [hBsa, hBsaData]; exact hsl1) (by rw [hBsa, hBsaData]; exact hsl2)
  set SG : State :=
    { BIG with
      mem := M
      heapCursor := BIG.heapCursor + strSpan p1.length + strSpan p2.length
      sa := Function.update (Function.update BIG.sa BIG.saData BIG.heapCursor)
              (BIG.saData + 1) (BIG.heapCursor + strSpan p1.length) }
    with hSGdef
  have hmain : collect_garbage s extra = some (heap_shrink SG) := by
    refine @collect_garbage_eq s extra BIG BIG SG SG ?_ ?_ ?_ ?_
    · exact collect_string_reg_of_zero (show BIG.stringReg = 0 from hsr)
    · exact collect_node_reg_of_null
        (show BIG.mem BIG.nodeReg = Val.itblV ITbl.nullT from by rw [hBmem]; exact hnr)
    · rw [show List.range' BIG.saData (BIG.saTop - BIG.saData) = [BIG.saData, BIG.saData + 1]
        from by
          rw [show BIG.saTop - BIG.saData = 2 from by rw [hBsaTop, hBsaData]; omega]
          rfl]
      exact hSA
    · exact collectFrames_done SG.sbBase SG.sbBase SG
        (show SG.sbBase = SG.sbData from by
          show s.sbBase = s.sbData
          exact hsb)
  refine ⟨heap_shrink SG, hmain, ?_, ?_, ?_, ?_, ?_, ?_⟩
  · rw [heap_shrink_cursor]
  · rw [heap_shrink_saTop]
  · rw [heap_shrink_sa]
    show (Function.update (Function.update BIG.sa BIG.saData BIG.heapCursor)
          (BIG.saData + 1) (BIG.heapCursor + strSpan p1.length)) s.saData = s.nextAlloc
    rw [hBsa, hBsaData, hBcur, Function.update_noteq (by omega), Function.update_same]
  · rw [heap_shrink_sa]
    show (Function.update (Function.update BIG.sa BIG.saData BIG.heapCursor)
          (BIG.saData + 1) (BIG.heapCursor + strSpan p1.length)) (s.saData + 1) = _
    rw [hBsa, hBsaData, hBcur, Function.update_same]
  · rw [heap_shrink_mem]
    show storesString M s.nextAlloc p1
    rw [← hBcur]
    exact hq1
  · rw [heap_shrink_mem]
    show storesString M (s.nextAlloc + strSpan p1.length) p2
    rw [← hBcur]
    exact hq2

/-- The no-collection branch of string_concat. -/
theorem string_concat_eq_noGC {s : State} {a1 a2 len1 len2 : Nat}
    (hsl1 : strlen s.mem (a1 + 8) = some len1) (hsl2 : strlen s.mem (a2 + 8) = some len2)
    (hfit : ¬ (s.heapData + s.heapCapacity < s.heapCursor + concat_required len1 len2)) :
    string_concat s a1 a2 =
      some (concat_write s (a1 + 8) (a2 + 8) len1 len2 (concat_extra len1 len2)) := by
  unfold string_concat
  rw [hsl1, hsl2]
  dsimp only
  rw [if_neg hfit]

/-- The collection branch of string_concat. -/
theorem string_concat_eq_GC {s : State} {a1 a2 len1 len2 : Nat} {sG : State}
    (hsl1 : strlen s.mem (a1 + 8) = some len1) (hsl2 : strlen s.mem (a2 + 8) = some len2)
    (hover : s.heapData + s.heapCapacity < s.heapCursor + concat_required len1 len2)
    (hgc : collect_garbage
        { s with
          sa := Function.update (Function.update s.sa s.saTop a1) (s.saTop + 1) a2
          saTop := s.saTop + 2 } (concat_required len1 len2) = some sG) :
    string_concat s a1 a2 =
      some (concat_write { sG with saTop := sG.saTop - 2 }
        (sG.sa (sG.saTop - 2) + 8) (sG.sa (sG.saTop - 1) + 8) len1 len2
        (concat_extra len1 len2)) := by
  unfold string_concat
  rw [hsl1, hsl2]
  dsimp only
  rw [if_pos hover, hgc]

/-! ## Claim theorems -/

/-- Claim C1, counterexample: with a heap full of unreachable data and no
roots, heap_reserve(1) triggers a collection whose shrink step lowers
capacity to 3 times the live bytes, here 0, so afterwards cursor + 1 exceeds
data + capacity and P1 fails. -/
theorem heap_reserve_P1_cex :
    (heap_reserve CE1 1).map
        (fun s => decide (s.heapCursor + 1 ≤ s.heapData + s.heapCapacity))
      = some false := by decide

/-- Claim C1, amended: after heap_reserve(n) the heap satisfies
cursor + n ≤ data + capacity whenever n is at most twice the live bytes the
collection copies (and always when no collection runs); the shrink step can
violate the bound otherwise.  Stated over the size-level model, with the
well-formedness fact live ≤ used as a hypothesis. -/
theorem heap_reserve_P1_amended (h : HeapSz) (live amount : Nat)
    (hlive : live ≤ h.used) (hamount : amount ≤ 2 * live) :
    (heap_reserve_sz h live amount).used + amount ≤ (heap_reserve_sz h live amount).capacity := by
  have hnew : h.used + amount ≤ collect_new_capacity h.capacity h.used amount := by
    unfold collect_new_capacity
    split <;> omega
  unfold heap_reserve_sz collect_garbage_sz
  split
  · show live + amount ≤
      if 3 * live < collect_new_capacity h.capacity h.used amount then 3 * live
      else collect_new_capacity h.capacity h.used amount
    split <;> omega
  · omega

/-- Claim C1, witness for the amended theorem at used = capacity = 10,
live = 5, amount = 3. -/
theorem heap_reserve_P1_amended_witness :
    5 ≤ (HeapSz.mk 10 10).used ∧ 3 ≤ 2 * 5 ∧
    (heap_reserve_sz ⟨10, 10⟩ 5 3).used + 3 ≤ (heap_reserve_sz ⟨10, 10⟩ 5 3).capacity :=
  ⟨by decide, by decide, heap_reserve_P1_amended ⟨10, 10⟩ 5 3 (by decide) (by decide)⟩

/-- Claim C2: on the insufficient-arguments path, the code builds the
partial-application closure (the info table appears at the old cursor 1000
and the heap grows by info table + two uint16 + one saved A slot + one saved
B slot = 28 bytes) but the thunk named in the update frame, at 500, is left
untouched: no indirection is installed, the source has only a TODO there. -/
theorem papp_no_indirection_installed :
    (check_application_update S2cb 2 55).map
        (fun r => (r.1.mem 500, r.1.mem 1000, r.1.heapCursor, r.2))
      = some (Val.undef, Val.itblV ITbl.pappT, 1028, some 55) := by decide

/-- Claim C3, counterexample: g_StringRegister is initialised to NULL
(src line 128), not to the address of the null-sentinel info table. -/
theorem string_register_init_null_cex :
    g_StringRegister_init = 0 ∧ g_StringRegister_init ≠ nullSentinelAddr := by decide

/-- Claim C3, amended: NodeRegister and ConstrUpdateRegister are initialised
to the (nonzero) address of the null-sentinel info table, but StringRegister
is initialised to NULL; the collector compensates by testing it against NULL
before reading an info table through it (src line 229). -/
theorem register_init_amended :
    g_NodeRegister_init = nullSentinelAddr ∧
    g_ConstrUpdateRegister_init = nullSentinelAddr ∧
    nullSentinelAddr ≠ 0 ∧
    g_StringRegister_init = 0 := by decide

/-- Claim C4: for two disjoint heap string closures with payloads p1 and p2
below the cursor, string_concat returns the address of a new heap string
closure whose payload is p1 followed by p2 with exactly one trailing NUL -
in both branches: when the heap has room, and when the concatenation
triggers a collection that moves both strings (the environment of the call
is the benign one string_concat runs in: string register NULL, node
register at the null sentinel, otherwise empty stacks). -/
theorem string_concat_correct (s : State) (a1 a2 : Nat) (p1 p2 : List Nat)
    (h1 : storesString s.mem a1 p1) (h2 : storesString s.mem a2 p2)
    (hlen1 : p1.length < STRLEN_FUEL) (hlen2 : p2.length < STRLEN_FUEL)
    (hd : a1 + strSpan p1.length ≤ a2 ∨ a2 + strSpan p2.length ≤ a1)
    (hc1 : a1 + strSpan p1.length ≤ s.heapCursor)
    (hc2 : a2 + strSpan p2.length ≤ s.heapCursor)
    (hfresh : s.heapCursor ≤ s.nextAlloc)
    (hsr : s.stringReg = 0)
    (hnr : s.mem s.nodeReg = Val.itblV ITbl.nullT)
    (hsa : s.saTop = s.saData)
    (hsb : s.sbBase = s.sbData) :
    ∃ s2 r, string_concat s a1 a2 = some (s2, r) ∧ storesString s2.mem r (p1 ++ p2) := by
  have h9a := strSpan_lower p1.length
  have h16a := strSpan_sixteen p1.length
  have h9b := strSpan_lower p2.length
  have h16b := strSpan_sixteen p2.length
  have hsl1 : strlen s.mem (a1 + 8) = some p1.length := strlen_of_storesBytes _ _ _ h1.2 hlen1
  have hsl2 : strlen s.mem (a2 + 8) = some p2.length := strlen_of_storesBytes _ _ _ h2.2 hlen2
  by_cases hneed :
      s.heapData + s.heapCapacity < s.heapCursor + concat_required p1.length p2.length
  · -- collection path
    set sP : State :=
      { s with
        sa := Function.update (Function.update s.sa s.saTop a1) (s.saTop + 1) a2
        saTop := s.saTop + 2 }
      with hsPdef
    have hPmem : sP.mem = s.mem := rfl
    have hPna : sP.nextAlloc = s.nextAlloc := rfl
    have hPtop : sP.saTop = s.saTop + 2 := rfl
    have hPdata : sP.saData = s.saData := rfl
    have hPsa : sP.sa = Function.update (Function.update s.sa s.saTop a1) (s.saTop + 1) a2 := rfl
    obtain ⟨SG, hgc, hcur, htop, hslA, hslB, hq1, hq2⟩ :=
      collect_two sP a1 a2 p1 p2 (concat_required p1.length p2.length)
        (by rw [hPmem]; exact h1) (by rw [hPmem]; exact h2) hlen1 hlen2 hd
        (by rw [hPna]; omega) (by rw [hPna]; omega)
        hsr (by rw [hPmem]; exact hnr)
        (by rw [hPtop, hPdata]; omega)
        (by rw [hPsa, hPdata, ← hsa, Function.update_noteq (by omega), Function.update_same])
        (by rw [hPsa, hPdata, ← hsa, Function.update_same])
        hsb
    have hback1 : SG.sa (SG.saTop - 2) = s.nextAlloc := by
      rw [htop, hPtop, show s.saTop + 2 - 2 = s.saTop from by omega, hsa]
      exact hslA
    have hback2 : SG.sa (SG.saTop - 1) = s.nextAlloc + strSpan p1.length := by
      rw [htop, hPtop, show s.saTop + 2 - 1 = s.saTop + 1 from by omega, hsa]
      exact hslB
    have heq := string_concat_eq_GC hsl1 hsl2 hneed hgc
    rw [hback1, hback2] at heq
    have hw := concat_write_spec { SG with saTop := SG.saTop - 2 }
        (s.nextAlloc + 8) (s.nextAlloc + strSpan p1.length + 8) p1 p2
        (concat_extra p1.length p2.length)
        (storesInit_of_storesBytes _ _ _ hq1.2) hq2.2
        (by show s.nextAlloc + 8 + p1.length ≤ SG.heapCursor
            rw [hcur, hPna]
            omega)
        (by show s.nextAlloc + strSpan p1.length + 8 + (p2.length + 1) ≤ SG.heapCursor
            rw [hcur, hPna]
            omega)
    have hfin := hw.2
    rw [← hw.1] at hfin
    exact ⟨_, _, heq, hfin⟩
  · -- no collection needed
    have heq := string_concat_eq_noGC hsl1 hsl2 hneed
    have hw := concat_write_spec s (a1 + 8) (a2 + 8) p1 p2 (concat_extra p1.length p2.length)
      (storesInit_of_storesBytes _ _ _ h1.2) h2.2 (by omega) (by omega)
    have hfin := hw.2
    rw [← hw.1] at hfin
    exact ⟨_, _, heq, hfin⟩

/-- Claim C4, witness: concatenating the one-byte strings at 100 and 120 in
W48, whose heap is too small, so the collecting branch runs. -/
theorem string_concat_correct_witness :
    ∃ s2 r, string_concat W48 100 120 = some (s2, r) ∧
      storesString s2.mem r ([97] ++ [98]) :=
  string_concat_correct W48 100 120 [97] [98] (by decide) (by decide) (by decide) (by decide)
    (by decide) (by decide) (by decide) (by decide) (by decide) (by decide) (by decide)
    (by decide)

/-- Claim C5, counterexample: collecting a heap with capacity 10, 10 used
bytes and no live data while requiring 100 extra bytes allocates
max(3 x 10, 10 + 100) = 110 bytes (visible as the malloc bump), although
live_bytes + extra_required = 0 + 100 and the claimed formula gives
max(30, 100) = 100: the code sizes from old cursor - old data, not from the
live bytes. -/
theorem collect_capacity_live_cex :
    (collect_garbage CE5 100).map
        (fun s => (s.nextAlloc - CE5.nextAlloc, s.heapCursor - s.heapData))
      = some (110, 0) ∧
    (110 : Nat) ≠ max (3 * CE5.heapCapacity) (0 + 100) := by decide

/-- Claim C5, amended: whenever collection runs with minimum-extra
requirement extra, the newly allocated semi-space (before the final shrink
step, visible as the size of the malloc, i.e. the bump of nextAlloc) has
capacity max(3 x old capacity, used_bytes + extra) where used_bytes =
old cursor - old data, the bytes written in the old space including
garbage - not the live bytes. -/
theorem collect_capacity_amended (s : State) (extra : Nat) (s2 : State)
    (h : collect_garbage s extra = some s2) :
    s2.nextAlloc - s.nextAlloc =
      max (3 * s.heapCapacity) ((s.heapCursor - s.heapData) + extra) := by
  unfold collect_garbage at h
  split at h
  · exact Option.noConfusion h
  · rename_i sA hA
    split at h
    · exact Option.noConfusion h
    · rename_i sB hB
      split at h
      · exact Option.noConfusion h
      · rename_i sC hC
        split at h
        · exact Option.noConfusion h
        · rename_i sD hD
          simp only [Option.some.injEq] at h
          rw [← h, heap_shrink_nextAlloc, collectFrames_nextAlloc _ _ _ _ hD,
              collectSA_nextAlloc _ _ _ hC, collect_node_reg_nextAlloc hB,
              collect_string_reg_nextAlloc hA]
          show s.nextAlloc + collect_new_capacity s.heapCapacity (s.heapCursor - s.heapData) extra
                 - s.nextAlloc = _
          rw [collect_new_capacity_eq_max]
          omega

/-- Claim C5, witness for the amended theorem: the concrete collection of
CE5 (capacity 10, used 10, no live data, extra 100) allocates
max(30, 110) = 110 bytes. -/
theorem collect_capacity_amended_witness :
    collect_garbage CE5 100 = some RES5 ∧
    RES5.nextAlloc - CE5.nextAlloc =
      max (3 * CE5.heapCapacity) ((CE5.heapCursor - CE5.heapData) + 100) :=
  ⟨rfl, collect_capacity_amended CE5 100 RES5 rfl⟩

/-- Claim C6: update_constructor, run after the dispatch loop popped its own
label, removes four more slots from the top of stack B, loads the update
register from the closure-to-update slot, restores both saved bases from the
frame, and returns the return-continuation label stored in the bottom
slot. -/
theorem update_constructor_spec (s : State) (k bb ab c : Nat)
    (h4 : 4 ≤ s.sbTop)
    (h0 : s.sb (s.sbTop - 4) = BItem.codeV k)
    (h1 : s.sb (s.sbTop - 3) = BItem.sbBaseV bb)
    (h2 : s.sb (s.sbTop - 2) = BItem.saBaseV ab)
    (h3 : s.sb (s.sbTop - 1) = BItem.closureV c) :
    update_constructor s =
      some ({ s with sbTop := s.sbTop - 4, constrUpdateReg := c, saBase := ab, sbBase := bb }, k) := by
  have e3 : s.sbTop - 4 + 3 = s.sbTop - 1 := by omega
  have e2 : s.sbTop - 4 + 2 = s.sbTop - 2 := by omega
  have e1 : s.sbTop - 4 + 1 = s.sbTop - 3 := by omega
  unfold update_constructor
  rw [e3, e2, e1, h0, h1, h2, h3]

/-- Claim C6, witness: the concrete frame of W6. -/
theorem update_constructor_spec_witness :
    update_constructor W6 =
      some ({ W6 with sbTop := 1, constrUpdateReg := 500, saBase := 0, sbBase := 0 }, 42) :=
  update_constructor_spec W6 42 0 0 500 (by decide) (by decide) (by decide) (by decide) (by decide)

/-- Claim C7: none of the runtime-owned info tables installs a panicking
entry stub: every entry field is NULL (modelled none), despite the comment
in the source saying a panicking function is provided, so entering a string,
string-literal, partial-application or null-sentinel closure calls a null
function pointer instead of reaching panic. -/
theorem entry_fields_are_null :
    table_for_string.entry = none ∧
    table_for_string_literal.entry = none ∧
    table_for_papp.entry = none ∧
    table_for_null.entry = none ∧
    (panic []).1 = PANIC_BYTES ∧ (panic []).2 ≠ 0 := by decide

/-- Claim C8: for a string closure evacuated during collection, evacuation
is idempotent on the old address: the first evac dispatched through the
string info table returns the new address (the old cursor) and overwrites
the old header with the already-evacuated table and the forwarding pointer,
and a subsequent evac dispatched by reading the info table now found at the
old address returns the same new address without changing the state (hence
so does every later one). -/
theorem string_evac_idempotent (s : State) (a : Nat) (p : List Nat)
    (h : storesString s.mem a p) (hlen : p.length < STRLEN_FUEL)
    (hbelow : a + strSpan p.length ≤ s.heapCursor) :
    ∃ s1 : State, collect_root s a = some (s1, s.heapCursor) ∧
      read_info_table s1.mem a = some ITbl.alreadyEvacT ∧
      read_ptr s1.mem (a + 8) = some s.heapCursor ∧
      collect_root s1 a = some (s1, s.heapCursor) := by
  obtain ⟨M, hev, hcopy, hhdr, hfwd, hframe⟩ := string_evac_spec s a p h hlen hbelow
  have hri : read_info_table s.mem a = some ITbl.stringT := by
    unfold read_info_table
    rw [h.1]
  have hriM : read_info_table M a = some ITbl.alreadyEvacT := by
    unfold read_info_table
    rw [hhdr]
  have hrpM : read_ptr M (a + 8) = some s.heapCursor := by
    unfold read_ptr
    rw [hfwd]
  refine ⟨{ s with mem := M, heapCursor := s.heapCursor + strSpan p.length }, ?_, ?_, ?_, ?_⟩
  · unfold collect_root
    rw [hri]
    show string_evac s a = _
    exact hev
  · show read_info_table M a = some ITbl.alreadyEvacT
    exact hriM
  · show read_ptr M (a + 8) = some s.heapCursor
    exact hrpM
  · unfold collect_root
    show (match read_info_table M a with
          | some t => evacFn (tableOf t).evac
              { s with mem := M, heapCursor := s.heapCursor + strSpan p.length } a
          | none => none) = _
    rw [hriM]
    show already_evac { s with mem := M, heapCursor := s.heapCursor + strSpan p.length } a = _
    unfold already_evac
    show (match read_ptr M (a + 8) with
          | some r =>
              some ({ s with mem := M, heapCursor := s.heapCursor + strSpan p.length }, r)
          | none => none) = _
    rw [hrpM]

/-- Claim C8, witness: the heap string with payload byte 97 at address 100
in W48, evacuated to the cursor 200. -/
theorem string_evac_idempotent_witness :
    ∃ s1 : State, collect_root W48 100 = some (s1, W48.heapCursor) ∧
      read_info_table s1.mem 100 = some ITbl.alreadyEvacT ∧
      read_ptr s1.mem (100 + 8) = some W48.heapCursor ∧
      collect_root s1 100 = some (s1, W48.heapCursor) :=
  string_evac_idempotent W48 100 [97] (by decide) (by decide) (by decide)

/-- Claim C9: check_application_update(arg_count, current) returns NULL
(modelled as the inner component none) exactly when the arguments on stack
A, SA.top - SA.base, reach arg_count, and in that case the heap, both
stacks and all registers - the whole state - are returned unchanged. -/
theorem check_application_update_null_iff (s : State) (c : Int) (cur : Nat) :
    ((s.saTop : Int) - (s.saBase : Int) ≥ c →
        check_application_update s c cur = some (s, none)) ∧
    (∀ s2 r, check_application_update s c cur = some (s2, r) →
        ((r = none ↔ (s.saTop : Int) - (s.saBase : Int) ≥ c) ∧ (r = none → s2 = s))) := by
  constructor
  · intro hge
    unfold check_application_update
    rw [if_pos hge]
  · intro s2 r h
    by_cases hge : (s.saTop : Int) - (s.saBase : Int) ≥ c
    · unfold check_application_update at h
      rw [if_pos hge] at h
      simp only [Option.some.injEq, Prod.mk.injEq] at h
      obtain ⟨hs, hr⟩ := h
      subst hs
      rw [← hr]
      exact ⟨⟨fun _ => hge, fun _ => rfl⟩, fun _ => rfl⟩
    · have haux : ∀ s2a ra, check_application_update s c cur = some (s2a, ra) →
          ra = some cur := by
        intro s2a ra ha
        unfold check_application_update at ha
        rw [if_neg hge] at ha
        split at ha
        · exact Option.noConfusion ha
        · split at ha
          · exact Option.noConfusion ha
          · split at ha
            · exact Option.noConfusion ha
            · split at ha
              · exact Option.noConfusion ha
              · simp only [Option.some.injEq, Prod.mk.injEq] at ha
                exact ha.2.symm
      have hr := haux s2 r h
      subst hr
      refine ⟨⟨fun hx => Option.noConfusion hx, fun hx => absurd hx hge⟩,
              fun hx => Option.noConfusion hx⟩

/-- Claim C9, witness: in the base state stack A is empty, so zero required
arguments are available and the call returns NULL with the state intact. -/
theorem check_application_update_null_iff_witness :
    check_application_update baseState 0 7 = some (baseState, none) :=
  (check_application_update_null_iff baseState 0 7).1 (by decide)

/-- Claim C10: with the frame at the bottom of stack B (base 0, top 4) and
nothing above it, the removal loop runs top - base + 4 = 8 iterations and
reads slots 4 through 11 - every one of them at or above the pre-shift top -
and the value written into slot 0 is exactly the junk read from slot 4, the
pre-shift top. -/
theorem shift_loop_reads_above_top :
    sbReadIndices 0 4 = [4, 5, 6, 7, 8, 9, 10, 11] ∧
    ¬ (∀ j ∈ sbReadIndices 0 4, j < 4) ∧
    shiftLoop SB10 0 (4 - 0 + 4) 0 = SB10 4 := by decide

end RT
